import Mathlib

/-!
Shallow embedding of the StockTracker stock-monitoring core
(src/stockcheck: models.py, state.py, runner.py, alerts.py,
adapters/base.py, adapters/playwright_base.py, adapters/target.py,
adapters/bestbuy.py) together with proofs of its specification claims.

Conventions of the embedding:
- Python `StockStatus` (a string enum) becomes an inductive type; equality
  is what the code uses, and the enum-to-string map is kept for fidelity.
- The sqlite table `stock_state` becomes a list of rows; the PRIMARY KEY
  upsert of `update_status` becomes an in-place replace-or-append.
- Timestamps (`datetime.now().isoformat()`) become a `Nat` clock supplied
  by the caller and threaded by the runner state.
- Fallible I/O calls (adapter methods, webhook send, geocoding) become
  `Except Err` values; a Python `raise` is `Except.error`, and a
  `try/except Exception` is a `match` on the `Except`.
- The `status.json` snapshot file becomes an `Option (List CheckRecord)`
  field of the runner state, `none` meaning the file content predates the
  run; `_write_status` replaces it wholesale.
-/

namespace StockTracker

/-- StockStatus from models.py: in_stock, out_of_stock, unknown. -/
inductive StockStatus where
  | in_stock
  | out_of_stock
  | unknown
deriving DecidableEq, Repr

/-- The string value of each StockStatus member (the str-enum payload). -/
def StockStatus.value : StockStatus → String
  | .in_stock => "in_stock"
  | .out_of_stock => "out_of_stock"
  | .unknown => "unknown"

/-- Identifier.type from models.py: Literal of sku or url. -/
inductive IdKind where
  | sku
  | url
deriving DecidableEq, Repr

/-- The literal string of an identifier kind. -/
def IdKind.str : IdKind → String
  | .sku => "sku"
  | .url => "url"

/-- Identifier from models.py. -/
structure Identifier where
  type : IdKind
  value : String
deriving DecidableEq, Repr

/-- WatchItem from models.py. The retailer literal is kept as a string. -/
structure WatchItem where
  retailer : String
  label : String
  identifier : Identifier
deriving DecidableEq, Repr

/-- WatchItem.item_key property: "{identifier.type}:{identifier.value}". -/
def WatchItem.item_key (w : WatchItem) : String :=
  w.identifier.type.str ++ ":" ++ w.identifier.value

/-- Store from models.py; lat and lon (Python floats) are embedded as
rationals, which is faithful for every claim (no arithmetic is done on
them by the core). -/
structure Store where
  retailer : String
  store_id : String
  name : String
  lat : ℚ
  lon : ℚ
  address : String
deriving DecidableEq, Repr

/-- TransitionResult from state.py. -/
structure TransitionResult where
  changed : Bool
  should_alert : Bool
  previous_status : Option StockStatus
  current_status : StockStatus
deriving DecidableEq, Repr

/-- One row of the sqlite table stock_state from state.py. -/
structure Row where
  retailer : String
  item_key : String
  store_id : String
  status : StockStatus
  updated_at : Nat
deriving DecidableEq, Repr

/-- The composite PRIMARY KEY (retailer, item_key, store_id). -/
abbrev SKey := String × String × String

/-- The key of a row. -/
def Row.key (r : Row) : SKey := (r.retailer, r.item_key, r.store_id)

/-- The stock_state table: a list of rows.  The upsert below keeps at most
one row per key, mirroring the PRIMARY KEY constraint. -/
abbrev Table := List Row

/-- The WHERE clause of get_status: all three key columns match. -/
def rowMatches (retailer item_key store_id : String) (row : Row) : Bool :=
  row.retailer == retailer && row.item_key == item_key && row.store_id == store_id

/-- StateStore.get_status from state.py: SELECT status FROM stock_state
WHERE the three key columns match; None when no row exists. -/
def get_status (t : Table) (retailer item_key store_id : String) :
    Option StockStatus :=
  (t.find? (rowMatches retailer item_key store_id)).map Row.status

/-- The INSERT ... ON CONFLICT(retailer, item_key, store_id) DO UPDATE of
update_status: replace the row with the conflicting key if one exists,
otherwise insert the new row. -/
def upsert (t : Table) (row : Row) : Table :=
  if t.any (rowMatches row.retailer row.item_key row.store_id) then
    t.map (fun x => if rowMatches row.retailer row.item_key row.store_id x then row else x)
  else
    t ++ [row]

/-- StateStore.update_status from state.py: read the prior status, upsert
the new row with a fresh timestamp (here the caller-supplied clock `now`),
and compute the transition.  In the source, `changed = previous != status`
compares an Optional against a status, so an absent row always counts as a
change. -/
def update_status (t : Table) (retailer item_key store_id : String)
    (status : StockStatus) (now : Nat) : TransitionResult × Table :=
  let previous := get_status t retailer item_key store_id
  let t' := upsert t ⟨retailer, item_key, store_id, status, now⟩
  let changed : Bool := previous != some status
  let should_alert : Bool := changed && (status == StockStatus.in_stock)
  (⟨changed, should_alert, previous, status⟩, t')

/-- StateStore._init_db: CREATE TABLE IF NOT EXISTS.  Opening a store over
a missing backing file creates an empty table; opening it over an existing
file keeps every row (the schema creation is idempotent). -/
def init_db : Option Table → Table
  | none => []
  | some t => t

/-- The ORDER BY retailer, item_key, store_id comparison of dump_status,
as a lexicographic order on composite keys. -/
def keyLe (a b : SKey) : Prop :=
  a.1 < b.1 ∨ a.1 = b.1 ∧ (a.2.1 < b.2.1 ∨ a.2.1 = b.2.1 ∧ a.2.2 ≤ b.2.2)

instance : DecidableRel keyLe := fun a b => by
  unfold keyLe; infer_instance

/-- Row comparison used to sort the dump. -/
def rowLe (x y : Row) : Prop := keyLe x.key y.key

instance : DecidableRel rowLe := fun x y => by
  unfold rowLe; infer_instance

/-- StateStore.dump_status from state.py: all rows, ORDER BY
retailer, item_key, store_id. -/
def dump_status (t : Table) : Table :=
  t.insertionSort rowLe

instance : IsTotal Row rowLe :=
  ⟨fun x y => by
    unfold rowLe keyLe
    rcases lt_trichotomy x.key.1 y.key.1 with h | h | h
    · exact Or.inl (Or.inl h)
    · rcases lt_trichotomy x.key.2.1 y.key.2.1 with g | g | g
      · exact Or.inl (Or.inr ⟨h, Or.inl g⟩)
      · rcases le_total x.key.2.2 y.key.2.2 with f | f
        · exact Or.inl (Or.inr ⟨h, Or.inr ⟨g, f⟩⟩)
        · exact Or.inr (Or.inr ⟨h.symm, Or.inr ⟨g.symm, f⟩⟩)
      · exact Or.inr (Or.inr ⟨h.symm, Or.inl g⟩)
    · exact Or.inr (Or.inl h)⟩

instance : IsTrans Row rowLe :=
  ⟨fun x y z hab hbc => by
    unfold rowLe keyLe at *
    obtain h1 | ⟨e1, h1⟩ := hab <;> obtain h2 | ⟨e2, h2⟩ := hbc
    · exact Or.inl (h1.trans h2)
    · exact Or.inl (h1.trans_eq e2)
    · exact Or.inl (e1.trans_lt h2)
    · refine Or.inr ⟨e1.trans e2, ?_⟩
      obtain g1 | ⟨f1, g1⟩ := h1 <;> obtain g2 | ⟨f2, g2⟩ := h2
      · exact Or.inl (g1.trans g2)
      · exact Or.inl (g1.trans_eq f2)
      · exact Or.inl (f1.trans_lt g2)
      · exact Or.inr ⟨f1.trans f2, g1.trans g2⟩⟩

/-- A table has at most one row per composite key. -/
def NodupKeys (t : Table) : Prop := (t.map Row.key).Nodup

/-- Any sequence of update_status calls, starting from a given table.
Each element carries the key columns, the new status and the clock value. -/
def applyOps : Table → List (String × String × String × StockStatus × Nat) → Table
  | t, [] => t
  | t, (r, k, sid, s, n) :: rest => applyOps (update_status t r k sid s n).2 rest

/-- Abstract image of a raised Python exception.  The identifier-kind
ValueError raised by the adapters is distinguished from every other
fault (network, timeout, parse), because the spec treats it separately. -/
inductive Err where
  | identifierMismatch (msg : String)
  | fault (msg : String)
deriving DecidableEq, Repr

/-- Python substring membership on char lists: needle occurs at some
position of hay. -/
def charsContain (hay needle : List Char) : Bool :=
  needle.isPrefixOf hay ||
    match hay with
    | [] => false
    | _ :: rest => charsContain rest needle

/-- Python `term in content` on strings. -/
def strContains (content term : String) : Bool :=
  charsContain content.toList term.toList

/-- Python str.lower, character by character. -/
def lower (s : String) : String := String.mk (s.toList.map Char.toLower)

/-- The classification shared by every scrape-based adapter: lowercase the
fetched blob, return out_of_stock on the first negative term found,
otherwise in_stock on the first positive term, otherwise unknown. -/
def classify (negative positive : List String) (blob : String) : StockStatus :=
  let content := lower blob
  if negative.any (fun term => strContains content term) then .out_of_stock
  else if positive.any (fun term => strContains content term) then .in_stock
  else .unknown

/-- TargetAdapter.positive_signals. -/
def target_positive_signals : List String :=
  ["pickup", "ready for pickup", "in stock", "available"]

/-- TargetAdapter.negative_signals. -/
def target_negative_signals : List String :=
  ["out of stock", "sold out", "not available at this store", "unavailable"]

/-- TargetAdapter._check_item_with_page from adapters/target.py: raise a
ValueError when the identifier is not a url, otherwise classify the
lowercased page text (the rendered body text is the `pageText` input; the
page fetch itself is I/O). -/
def target_check_item_with_page (pageText : String) (watch_item : WatchItem) :
    Except Err StockStatus :=
  if watch_item.identifier.type ≠ IdKind.url then
    .error (.identifierMismatch "target adapter requires url identifier")
  else
    .ok (classify target_negative_signals target_positive_signals pageText)

/-- GameStopAdapter.positive_signals. -/
def gamestop_positive_signals : List String := ["pick up", "available", "in stock"]

/-- GameStopAdapter.negative_signals. -/
def gamestop_negative_signals : List String := ["out of stock", "not available", "unavailable"]

/-- GameStopAdapter._check_item_with_page from adapters/gamestop.py. -/
def gamestop_check_item_with_page (pageText : String) (watch_item : WatchItem) :
    Except Err StockStatus :=
  if watch_item.identifier.type ≠ IdKind.url then
    .error (.identifierMismatch "gamestop adapter requires url identifier")
  else
    .ok (classify gamestop_negative_signals gamestop_positive_signals pageText)

/-- BestBuyAdapter negative term list (a local of check_item_in_store). -/
def bestbuy_negative : List String := ["sold out", "unavailable", "out of stock", "not available"]

/-- BestBuyAdapter positive term list (a local of check_item_in_store). -/
def bestbuy_positive : List String := ["available", "in stock", "pickup", "ready"]

/-- BestBuyAdapter._flatten_text input: the JSON payload of the product
availability response.  Primitive leaves carry their str() rendering; the
object case keeps only the values, which is all _flatten_text reads. -/
inductive Json where
  | null
  | prim (s : String)
  | arr (items : List Json)
  | obj (values : List Json)
deriving Repr

mutual

/-- BestBuyAdapter._flatten_text: join the primitive leaves with single
spaces, depth first. -/
def flatten_text : Json → String
  | .null => ""
  | .prim s => s
  | .arr items => String.intercalate " " (flatten_list items)
  | .obj values => String.intercalate " " (flatten_list values)

/-- The generator expression inside _flatten_text, one level of a list. -/
def flatten_list : List Json → List String
  | [] => []
  | j :: rest => flatten_text j :: flatten_list rest

end

/-- BestBuyAdapter.check_item_in_store from adapters/bestbuy.py: raise a
ValueError when the identifier is not a sku, otherwise classify the
lowercased flattened payload (the HTTP fetch of the payload is I/O and is
the `payload` input). -/
def bestbuy_check_item_in_store (payload : Json) (watch_item : WatchItem) :
    Except Err StockStatus :=
  if watch_item.identifier.type ≠ IdKind.sku then
    .error (.identifierMismatch "bestbuy adapter requires sku identifier")
  else
    .ok (classify bestbuy_negative bestbuy_positive (flatten_text payload))

/-- CheckRecord from runner.py. -/
structure CheckRecord where
  retailer : String
  label : String
  item_key : String
  store_id : String
  store_name : String
  status : StockStatus
deriving DecidableEq, Repr

/-- The RetailerAdapter contract from adapters/base.py, with the two
fallible I/O methods embedded as Except-valued functions: a Python raise
inside the method is an error value. -/
structure Adapter where
  find_stores_near : ℚ → ℚ → ℚ → Except Err (List Store)
  check_item_in_store : WatchItem → Store → Except Err StockStatus

/-- The AlertSink contract from alerts.py: send may fail (the Discord
variant raises on HTTP status 300 and above, and the POST itself can
raise). -/
structure AlertSink where
  send : String → Except Err Unit

/-- Observable side effects of a run, in program order: a state-store
write performed by update_status, or an attempted alert delivery carrying
the result the sink returned. -/
inductive Event where
  | update (retailer item_key store_id : String) (status : StockStatus)
  | alertAttempt (message : String) (result : Except Err Unit)
deriving Repr

/-- Mutable world of the service during a run: the sqlite table, the
timestamp clock, the content of the status.json snapshot file (none when
never written), and the event log. -/
structure RunState where
  table : Table
  clock : Nat
  snapshot : Option (List CheckRecord)
  trace : List Event
deriving Repr

/-- Inputs of run_once that the service reads but never writes: the
adapter for each retailer tag (the factory map plus construction), the
alert sink, the outcome of _resolve_lat_lon, the configured radius and
the watchlist. -/
structure RunEnv where
  adapters : String → Adapter
  sink : AlertSink
  resolve : Except Err (ℚ × ℚ)
  radius_miles : ℚ
  watchlist : List WatchItem

/-- The status actually recorded for one (item, store) check: the value
returned by check_item_in_store, or unknown when the call raised (the
except-Exception branch of _process_item). -/
def effStatus (adapter : Adapter) (item : WatchItem) (store : Store) : StockStatus :=
  match adapter.check_item_in_store item store with
  | .ok s => s
  | .error _ => .unknown

/-- The CheckRecord appended by _process_item for one store. -/
def recordFor (item : WatchItem) (store : Store) (status : StockStatus) : CheckRecord :=
  ⟨item.retailer, item.label, item.item_key, store.store_id, store.name, status⟩

/-- The alert message f-string of _process_item. -/
def alertMessage (item : WatchItem) (store : Store) : String :=
  "Pokemon stock alert: " ++ item.label ++ " is IN STOCK at " ++ store.name ++
    " (" ++ item.retailer ++ ", store=" ++ store.store_id ++ ")"

/-- One iteration of the store loop of _process_item: classify (catching
any raise as unknown), feed the status into the state store, attempt the
alert when the transition warrants one (catching any raise from send),
and produce the CheckRecord. -/
def processStore (env : RunEnv) (adapter : Adapter) (item : WatchItem)
    (store : Store) (st : RunState) : CheckRecord × RunState :=
  let status := effStatus adapter item store
  let out := update_status st.table item.retailer item.item_key store.store_id status st.clock
  let st1 : RunState :=
    { st with
      table := out.2
      clock := st.clock + 1
      trace := st.trace ++ [.update item.retailer item.item_key store.store_id status] }
  let st2 : RunState :=
    if out.1.should_alert then
      let msg := alertMessage item store
      { st1 with trace := st1.trace ++ [.alertAttempt msg (env.sink.send msg)] }
    else st1
  (recordFor item store status, st2)

/-- StockCheckerService._process_item from runner.py: check one watched
item at every candidate store, appending one CheckRecord per store. -/
def processItem (env : RunEnv) (adapter : Adapter) (item : WatchItem) :
    List Store → RunState → List CheckRecord × RunState
  | [], st => ([], st)
  | store :: rest, st =>
    let out := processStore env adapter item store st
    let outRest := processItem env adapter item rest out.2
    (out.1 :: outRest.1, outRest.2)

/-- The item loop of run_once for one retailer group: every watched item
of the retailer is checked at every candidate store. -/
def processGroup (env : RunEnv) (adapter : Adapter) (stores : List Store) :
    List WatchItem → RunState → List CheckRecord × RunState
  | [], st => ([], st)
  | item :: rest, st =>
    let out := processItem env adapter item stores st
    let outRest := processGroup env adapter stores rest out.2
    (out.1 ++ outRest.1, outRest.2)

/-- The retailer loop of run_once: ask the adapter for candidate stores
once (a raise here is NOT caught and aborts the run), then process every
item of the group. -/
def runGroups (env : RunEnv) (lat lon : ℚ) :
    List (String × List WatchItem) → RunState →
      Except Err (List CheckRecord) × RunState
  | [], st => (.ok [], st)
  | (retailer, items) :: rest, st =>
    match (env.adapters retailer).find_stores_near lat lon env.radius_miles with
    | .error e => (.error e, st)
    | .ok stores =>
      let out := processGroup env (env.adapters retailer) stores items st
      match runGroups env lat lon rest out.2 with
      | (.ok recs, st2) => (.ok (out.1 ++ recs), st2)
      | (.error e, st2) => (.error e, st2)

/-- The watchlist partition of run_once: a dict keyed by retailer in
first-appearance order, each group in watchlist order. -/
def groupByRetailer (items : List WatchItem) : List (String × List WatchItem) :=
  items.foldl
    (fun acc item =>
      if acc.any (fun p => p.1 == item.retailer) then
        acc.map (fun p => if p.1 == item.retailer then (p.1, p.2 ++ [item]) else p)
      else acc ++ [(item.retailer, [item])])
    []

/-- StockCheckerService.run_once from runner.py: resolve coordinates
(raising aborts the run), partition the watchlist by retailer, drive each
group, and on full success persist the snapshot (_write_status replaces
the whole status.json content).  The state reached by the time of an
uncaught raise is kept: sqlite commits happen per update. -/
def run_once (env : RunEnv) (st : RunState) :
    Except Err (List CheckRecord) × RunState :=
  match env.resolve with
  | .error e => (.error e, st)
  | .ok (lat, lon) =>
    match runGroups env lat lon (groupByRetailer env.watchlist) st with
    | (.ok records, st1) => (.ok records, { st1 with snapshot := some records })
    | (.error e, st1) => (.error e, st1)

/-- PlaywrightRetailerAdapter.find_stores_near: the single synthetic
local-context store (the float formatting of the address is elided). -/
def local_context_store (name : String) (zip : Option String) (lat lon radius : ℚ) : Store :=
  { retailer := name
    store_id := "local-context-" ++ zip.getD "unknown"
    name := name ++ " local area (" ++ zip.getD "zip-unknown" ++ ")"
    lat := lat
    lon := lon
    address := "within " ++ toString radius ++ " miles of ZIP " ++ zip.getD "unknown" }

/-- Replay the state-store writes of an event log against a table,
advancing the clock once per write; alert attempts touch no state. -/
def applyEvents (t : Table) (clock : Nat) : List Event → Table
  | [] => t
  | .update r k sid s :: rest =>
    applyEvents (update_status t r k sid s clock).2 (clock + 1) rest
  | .alertAttempt _ _ :: rest => applyEvents t clock rest

/-- Number of state-store writes in an event log. -/
def countUpdates : List Event → Nat
  | [] => 0
  | .update _ _ _ _ :: rest => countUpdates rest + 1
  | .alertAttempt _ _ :: rest => countUpdates rest

/-- Whether an event is a state-store write. -/
def Event.isUpdate : Event → Bool
  | .update _ _ _ _ => true
  | .alertAttempt _ _ => false

/-- The state-store writes of an event log, in order. -/
def updatesOf (tr : List Event) : List Event := tr.filter Event.isUpdate

/-- Two run states agree on everything an alert-delivery outcome could
influence: the table, the clock and the snapshot (the event log may
differ in the recorded send results). -/
def Agrees (s1 s2 : RunState) : Prop :=
  s1.table = s2.table ∧ s1.clock = s2.clock ∧ s1.snapshot = s2.snapshot

/-- A run state evolved from another by exactly the state-store writes it
logged: the event log grew by a suffix, the table is that suffix replayed
over the old table, the clock advanced once per write, and the snapshot
file was not touched. -/
def Evolves (st st' : RunState) : Prop :=
  ∃ Δ, st'.trace = st.trace ++ Δ
    ∧ st'.table = applyEvents st.table st.clock Δ
    ∧ st'.clock = st.clock + countUpdates Δ
    ∧ st'.snapshot = st.snapshot

/-- The key of the per-item schedule dict of run_forever:
(item.retailer, item.item_key). -/
abbrev SchedKey := String × String

/-- The schedule dict of run_forever, mapping keys to next-eligible
times (Python floats from time.time, embedded as rationals). -/
abbrev SchedMap := List (SchedKey × ℚ)

/-- Python schedule.get(key, 0): absent keys are due at time zero. -/
def schedGet (sched : SchedMap) (k : SchedKey) : ℚ :=
  match sched.find? (fun p => p.1 == k) with
  | some p => p.2
  | none => 0

/-- Python schedule[key] = v. -/
def schedSet (sched : SchedMap) (k : SchedKey) (v : ℚ) : SchedMap :=
  if sched.any (fun p => p.1 == k) then
    sched.map (fun p => if p.1 == k then (k, v) else p)
  else sched ++ [(k, v)]

/-- One execution the scheduler performed: which key ran, the pass time,
the due time it had, and the due time it was rescheduled to. -/
structure SchedLogEntry where
  key : SchedKey
  now : ℚ
  dueBefore : ℚ
  newDue : ℚ
deriving Repr

/-- One pass of the run_forever while-loop body over the watchlist at a
fixed wall-clock reading `now`: items whose due time has not been reached
are skipped; a due item executes run_once_for_item (its state effects are
modelled by run_once over the one-item watchlist and are not needed for
the scheduling claims) and is rescheduled to now + base * jitter, the
jitter being the value random.uniform(0.8, 1.2) returned for the i-th
watchlist position.  Returns the schedule, the execution log of the pass
and the triggered flag. -/
def schedPass (base now : ℚ) (jitter : Nat → ℚ) :
    List WatchItem → Nat → SchedMap → SchedMap × List SchedLogEntry × Bool
  | [], _, sched => (sched, [], false)
  | item :: rest, i, sched =>
    let key := (item.retailer, item.item_key)
    let due := schedGet sched key
    if now < due then
      schedPass base now jitter rest (i + 1) sched
    else
      let newDue := now + base * jitter i
      let out := schedPass base now jitter rest (i + 1) (schedSet sched key newDue)
      (out.1, ⟨key, now, due, newDue⟩ :: out.2.1, true)

/-- Finitely many iterations of the run_forever loop, each supplied with
its time.time() reading and its stream of random.uniform(0.8, 1.2) draws.
Returns the final schedule and the concatenated execution log. -/
def schedRun (base : ℚ) (watchlist : List WatchItem) :
    List (ℚ × (Nat → ℚ)) → SchedMap → SchedMap × List SchedLogEntry
  | [], sched => (sched, [])
  | (now, jitter) :: rest, sched =>
    let pass := schedPass base now jitter watchlist 0 sched
    let out := schedRun base watchlist rest pass.1
    (out.1, pass.2.1 ++ out.2)

/-- Fresh run state: empty table, clock zero, no snapshot ever written,
empty event log. -/
def st0 : RunState := ⟨[], 0, none, []⟩

/-- Fixture: a target item watched by URL. -/
def itemT : WatchItem := ⟨"target", "t-item", ⟨IdKind.url, "https://t.example/p"⟩⟩

/-- Fixture: a gamestop item watched by URL. -/
def itemG : WatchItem := ⟨"gamestop", "g-item", ⟨IdKind.url, "https://g.example/p"⟩⟩

/-- Fixture: a target item misconfigured with a sku identifier. -/
def itemBad : WatchItem := ⟨"target", "bad-item", ⟨IdKind.sku, "123"⟩⟩

/-- Fixture: a target store. -/
def storeT : Store := ⟨"target", "t-1", "Target Store 1", 1, 2, "addr t"⟩

/-- Fixture: a gamestop store. -/
def storeG : Store := ⟨"gamestop", "g-1", "GameStop Store 1", 1, 2, "addr g"⟩

/-- Fixture: an alert sink whose sends always succeed. -/
def okSink : AlertSink := ⟨fun _ => .ok ()⟩

/-- Fixture: an alert sink whose sends always raise, like a Discord
webhook answering with status 400. -/
def failSink : AlertSink := ⟨fun _ => .error (.fault "discord webhook failed (400)")⟩

/-- Fixture: an adapter that finds the given stores and reports every
item in stock. -/
def inStockAdapter (stores : List Store) : Adapter :=
  ⟨fun _ _ _ => .ok stores, fun _ _ => .ok .in_stock⟩

/-- Fixture: an adapter whose find_stores_near raises. -/
def failFindAdapter : Adapter :=
  ⟨fun _ _ _ => .error (.fault "boom"), fun _ _ => .ok .in_stock⟩

/-- Fixture: an adapter whose check_item_in_store raises a network
fault at every store. -/
def failCheckAdapter (stores : List Store) : Adapter :=
  ⟨fun _ _ _ => .ok stores, fun _ _ => .error (.fault "net down")⟩

/-- Fixture: the target page-scrape adapter over a fixed rendered page
text, wired exactly as adapters/target.py: the synthetic local-context
store and _check_item_with_page. -/
def targetPageAdapter (pageText : String) : Adapter :=
  ⟨fun lat lon radius => .ok [local_context_store "target" (some "10001") lat lon radius],
   fun it _ => target_check_item_with_page pageText it⟩

/-- Fixture for C2: two retailers in one run; the target adapter raises
in find_stores_near, the gamestop adapter works. -/
def envC2 : RunEnv :=
  ⟨fun r => if r == "target" then failFindAdapter else inStockAdapter [storeG],
   okSink, .ok (1, 2), 20, [itemT, itemG]⟩

/-- Fixture for the C2 witness: two retailers; every target check raises
a network fault, the gamestop adapter works; both find calls succeed. -/
def envC2W : RunEnv :=
  ⟨fun r => if r == "target" then failCheckAdapter [storeT] else inStockAdapter [storeG],
   okSink, .ok (1, 2), 20, [itemT, itemG]⟩

/-- Store directory of envC2W by retailer. -/
def storesFnW : String → List Store :=
  fun r => if r == "target" then [storeT] else [storeG]

/-- Fixture for C6: one run whose only item feeds a sku identifier to the
url-only target adapter. -/
def envC6 : RunEnv :=
  ⟨fun _ => targetPageAdapter "some page text", okSink, .ok (1, 2), 20, [itemBad]⟩

/-- Fixture for C10: location resolution fails (neither zip nor lat/lon),
so run_once raises before any retailer work. -/
def envErr : RunEnv :=
  ⟨fun _ => inStockAdapter [storeT], okSink,
   .error (.fault "location must include zip or lat/lon"), 20, [itemT]⟩

/-- Fixture for C10: a fully successful single-item run. -/
def envOk : RunEnv :=
  ⟨fun _ => inStockAdapter [storeT], okSink, .ok (1, 2), 20, [itemT]⟩

/-- Fixture for C10: the gamestop group is processed first and succeeds,
then the target adapter raises in find_stores_near and aborts the run. -/
def envC10 : RunEnv :=
  ⟨fun r => if r == "target" then failFindAdapter else inStockAdapter [storeG],
   okSink, .ok (1, 2), 20, [itemG, itemT]⟩

theorem rowMatches_iff (r k sid : String) (row : Row) :
    rowMatches r k sid row = true ↔ row.key = (r, k, sid) := by
  simp [rowMatches, Row.key, Prod.ext_iff, and_assoc]

theorem rowMatches_self (row : Row) :
    rowMatches row.retailer row.item_key row.store_id row = true := by
  simp [rowMatches]

theorem get_upsert_self (t : Table) (row : Row) :
    get_status (upsert t row) row.retailer row.item_key row.store_id =
      some row.status := by
  induction t with
  | nil => simp [upsert, get_status, rowMatches_self]
  | cons x xs ih =>
    by_cases hx : rowMatches row.retailer row.item_key row.store_id x
    · simp [upsert, get_status, hx, rowMatches_self]
    · by_cases hxs : xs.any (rowMatches row.retailer row.item_key row.store_id)
      · simp only [upsert, List.any_cons, hx, Bool.false_or, hxs, if_true,
          List.map_cons, get_status, List.find?_cons, Bool.false_eq_true] at ih ⊢
        simpa [hx] using ih
      · simp only [upsert, List.any_cons, hx, Bool.false_or, hxs, if_false,
          List.cons_append, get_status, List.find?_cons, Bool.false_eq_true] at ih ⊢
        simpa [hx] using ih

theorem get_update_self (t : Table) (r k sid : String) (s : StockStatus) (now : Nat) :
    get_status (update_status t r k sid s now).2 r k sid = some s := by
  simpa [update_status] using get_upsert_self t ⟨r, k, sid, s, now⟩

theorem nodupKeys_upsert (t : Table) (row : Row) (h : NodupKeys t) :
    NodupKeys (upsert t row) := by
  unfold upsert
  split
  · unfold NodupKeys
    have hkey : ∀ x : Row,
        Row.key (if rowMatches row.retailer row.item_key row.store_id x then row else x) =
          Row.key x := by
      intro x
      by_cases hx : rowMatches row.retailer row.item_key row.store_id x
      · have h2 := (rowMatches_iff row.retailer row.item_key row.store_id x).mp hx
        simp only [Row.key, Prod.ext_iff] at h2
        simp [hx, Row.key, h2.1, h2.2.1, h2.2.2]
      · simp [hx]
    have : (t.map (fun x =>
        if rowMatches row.retailer row.item_key row.store_id x then row else x)).map Row.key =
          t.map Row.key := by
      rw [List.map_map]
      exact List.map_congr_left fun x _ => hkey x
    rw [this]
    exact h
  · unfold NodupKeys
    rename_i hany
    have hnot : Row.key row ∉ t.map Row.key := by
      intro hmem
      obtain ⟨x, hx, hkx⟩ := List.mem_map.mp hmem
      have : rowMatches row.retailer row.item_key row.store_id x = true :=
        (rowMatches_iff _ _ _ x).mpr (by rw [hkx]; rfl)
      exact hany (List.any_eq_true.mpr ⟨x, hx, this⟩)
    simp only [List.map_append, List.map_cons, List.map_nil]
    exact (List.nodup_append.mpr ⟨h, List.nodup_singleton _, by
      intro a ha hb
      simp only [List.mem_singleton] at hb
      exact hnot (hb ▸ ha)⟩)

theorem nodupKeys_applyOps (ops : List (String × String × String × StockStatus × Nat)) :
    ∀ t : Table, NodupKeys t → NodupKeys (applyOps t ops) := by
  induction ops with
  | nil => intro t h; exact h
  | cons op rest ih =>
    intro t h
    obtain ⟨r, k, sid, s, n⟩ := op
    exact ih _ (nodupKeys_upsert t _ h)

theorem processStore_fst (env : RunEnv) (adapter : Adapter) (item : WatchItem)
    (store : Store) (st : RunState) :
    (processStore env adapter item store st).1 =
      recordFor item store (effStatus adapter item store) := rfl

theorem processStore_table (env : RunEnv) (adapter : Adapter) (item : WatchItem)
    (store : Store) (st : RunState) :
    (processStore env adapter item store st).2.table =
      (update_status st.table item.retailer item.item_key store.store_id
        (effStatus adapter item store) st.clock).2 := by
  simp only [processStore]
  split <;> rfl

theorem processStore_clock (env : RunEnv) (adapter : Adapter) (item : WatchItem)
    (store : Store) (st : RunState) :
    (processStore env adapter item store st).2.clock = st.clock + 1 := by
  simp only [processStore]
  split <;> rfl

theorem processStore_snapshot (env : RunEnv) (adapter : Adapter) (item : WatchItem)
    (store : Store) (st : RunState) :
    (processStore env adapter item store st).2.snapshot = st.snapshot := by
  simp only [processStore]
  split <;> rfl

theorem processStore_trace (env : RunEnv) (adapter : Adapter) (item : WatchItem)
    (store : Store) (st : RunState) :
    (processStore env adapter item store st).2.trace =
      st.trace ++ Event.update item.retailer item.item_key store.store_id
          (effStatus adapter item store) ::
        (if (update_status st.table item.retailer item.item_key store.store_id
            (effStatus adapter item store) st.clock).1.should_alert then
          [Event.alertAttempt (alertMessage item store)
            (env.sink.send (alertMessage item store))]
        else []) := by
  simp only [processStore]
  split <;> rename_i hc <;> simp [hc]

theorem processItem_records (env : RunEnv) (adapter : Adapter) (item : WatchItem)
    (stores : List Store) (st : RunState) :
    (processItem env adapter item stores st).1 =
      stores.map (fun store => recordFor item store (effStatus adapter item store)) := by
  induction stores generalizing st with
  | nil => rfl
  | cons store rest ih => simp [processItem, processStore_fst, ih]

theorem processItem_snapshot (env : RunEnv) (adapter : Adapter) (item : WatchItem)
    (stores : List Store) (st : RunState) :
    (processItem env adapter item stores st).2.snapshot = st.snapshot := by
  induction stores generalizing st with
  | nil => rfl
  | cons store rest ih => simp [processItem, ih, processStore_snapshot]

theorem updatesOf_append (a b : List Event) :
    updatesOf (a ++ b) = updatesOf a ++ updatesOf b := by
  simp [updatesOf, List.filter_append]

theorem processStore_updates (env : RunEnv) (adapter : Adapter) (item : WatchItem)
    (store : Store) (st : RunState) :
    updatesOf (processStore env adapter item store st).2.trace =
      updatesOf st.trace ++ [Event.update item.retailer item.item_key store.store_id
        (effStatus adapter item store)] := by
  rw [processStore_trace]
  split <;> simp [updatesOf, List.filter_append, Event.isUpdate]

theorem processItem_updates (env : RunEnv) (adapter : Adapter) (item : WatchItem)
    (stores : List Store) (st : RunState) :
    updatesOf (processItem env adapter item stores st).2.trace =
      updatesOf st.trace ++ stores.map (fun store =>
        Event.update item.retailer item.item_key store.store_id
          (effStatus adapter item store)) := by
  induction stores generalizing st with
  | nil => simp [processItem]
  | cons store rest ih =>
    simp [processItem, ih, processStore_updates, List.append_assoc]

theorem processGroup_records (env : RunEnv) (adapter : Adapter) (stores : List Store)
    (items : List WatchItem) (st : RunState) :
    (processGroup env adapter stores items st).1 =
      items.flatMap (fun item =>
        stores.map (fun store => recordFor item store (effStatus adapter item store))) := by
  induction items generalizing st with
  | nil => rfl
  | cons item rest ih => simp [processGroup, processItem_records, ih]

theorem processGroup_snapshot (env : RunEnv) (adapter : Adapter) (stores : List Store)
    (items : List WatchItem) (st : RunState) :
    (processGroup env adapter stores items st).2.snapshot = st.snapshot := by
  induction items generalizing st with
  | nil => rfl
  | cons item rest ih => simp [processGroup, ih, processItem_snapshot]

theorem runGroups_ok (env : RunEnv) (lat lon : ℚ) (storesFn : String → List Store)
    (groups : List (String × List WatchItem)) (st : RunState)
    (h : ∀ g ∈ groups,
      (env.adapters g.1).find_stores_near lat lon env.radius_miles = .ok (storesFn g.1)) :
    (runGroups env lat lon groups st).1 =
      .ok (groups.flatMap fun g => g.2.flatMap fun item =>
        (storesFn g.1).map fun store =>
          recordFor item store (effStatus (env.adapters g.1) item store)) := by
  induction groups generalizing st with
  | nil => rfl
  | cons g rest ih =>
    obtain ⟨retailer, items⟩ := g
    have hg := h _ (List.mem_cons_self _ _)
    simp only [runGroups, hg]
    have ihr := ih (processGroup env (env.adapters retailer) (storesFn retailer) items st).2
      (fun g hg2 => h g (List.mem_cons_of_mem _ hg2))
    rcases hrec : runGroups env lat lon rest
        (processGroup env (env.adapters retailer) (storesFn retailer) items st).2
      with ⟨res, st2⟩
    rw [hrec] at ihr
    simp only at ihr
    subst ihr
    simp [processGroup_records]

theorem agrees_processStore (env env' : RunEnv) (adapter : Adapter) (item : WatchItem)
    (store : Store) {st1 st2 : RunState} (h : Agrees st1 st2) :
    Agrees (processStore env adapter item store st1).2
      (processStore env' adapter item store st2).2 := by
  obtain ⟨ht, hc, hs⟩ := h
  exact ⟨by rw [processStore_table, processStore_table, ht, hc],
         by rw [processStore_clock, processStore_clock, hc],
         by rw [processStore_snapshot, processStore_snapshot, hs]⟩

theorem agrees_processItem (env env' : RunEnv) (adapter : Adapter) (item : WatchItem)
    (stores : List Store) {st1 st2 : RunState} (h : Agrees st1 st2) :
    Agrees (processItem env adapter item stores st1).2
      (processItem env' adapter item stores st2).2 := by
  induction stores generalizing st1 st2 with
  | nil => exact h
  | cons store rest ih =>
    exact ih (agrees_processStore env env' adapter item store h)

theorem agrees_processGroup (env env' : RunEnv) (adapter : Adapter) (stores : List Store)
    (items : List WatchItem) {st1 st2 : RunState} (h : Agrees st1 st2) :
    Agrees (processGroup env adapter stores items st1).2
      (processGroup env' adapter stores items st2).2 := by
  induction items generalizing st1 st2 with
  | nil => exact h
  | cons item rest ih =>
    exact ih (agrees_processItem env env' adapter item stores h)

theorem agrees_runGroups (env env' : RunEnv) (hA : env'.adapters = env.adapters)
    (hR : env'.radius_miles = env.radius_miles) (lat lon : ℚ)
    (groups : List (String × List WatchItem)) {st1 st2 : RunState} (h : Agrees st1 st2) :
    (runGroups env lat lon groups st1).1 = (runGroups env' lat lon groups st2).1
  ∧ Agrees (runGroups env lat lon groups st1).2 (runGroups env' lat lon groups st2).2 := by
  induction groups generalizing st1 st2 with
  | nil => exact ⟨rfl, h⟩
  | cons g rest ih =>
    obtain ⟨retailer, items⟩ := g
    simp only [runGroups, hA, hR]
    rcases hf : (env.adapters retailer).find_stores_near lat lon env.radius_miles with e | stores
    · exact ⟨rfl, h⟩
    · simp only
      have hgrp := agrees_processGroup env env' (env.adapters retailer) stores items h
      have ih2 := ih hgrp
      rcases h1 : runGroups env lat lon rest
          (processGroup env (env.adapters retailer) stores items st1).2 with ⟨r1, s1⟩
      rcases h2 : runGroups env' lat lon rest
          (processGroup env' (env.adapters retailer) stores items st2).2 with ⟨r2, s2⟩
      rw [h1, h2] at ih2
      simp only at ih2
      obtain ⟨hr, hs⟩ := ih2
      subst hr
      cases r1 with
      | error e =>
        exact ⟨rfl, hs⟩
      | ok recs =>
        refine ⟨?_, hs⟩
        rw [processGroup_records, processGroup_records]

/-- C4: the run never depends on the outcome of an alert delivery:
replacing the alert sink by any other (in particular one whose every send
raises) leaves the returned CheckRecords, the final state-store table and
the persisted snapshot unchanged, and within one (item, store) check the
state-store write event always precedes the alert attempt event in the
log, so the row is updated before send is tried. -/
theorem C4_alert_failure_isolated :
    ∀ (env : RunEnv) (sink' : AlertSink) (st : RunState),
    (run_once env st).1 = (run_once { env with sink := sink' } st).1
  ∧ (run_once env st).2.table = (run_once { env with sink := sink' } st).2.table
  ∧ (run_once env st).2.snapshot = (run_once { env with sink := sink' } st).2.snapshot
  ∧ ∀ (adapter : Adapter) (item : WatchItem) (store : Store) (st1 : RunState),
      (processStore env adapter item store st1).2.trace =
        st1.trace ++ Event.update item.retailer item.item_key store.store_id
            (effStatus adapter item store) ::
          (if (update_status st1.table item.retailer item.item_key store.store_id
              (effStatus adapter item store) st1.clock).1.should_alert then
            [Event.alertAttempt (alertMessage item store)
              (env.sink.send (alertMessage item store))]
          else []) := by
  intro env sink' st
  have hmain : (run_once env st).1 = (run_once { env with sink := sink' } st).1
    ∧ Agrees (run_once env st).2 (run_once { env with sink := sink' } st).2 := by
    generalize henv : ({ env with sink := sink' } : RunEnv) = env2
    have hres2 : env2.resolve = env.resolve := by rw [← henv]
    have hA : env2.adapters = env.adapters := by rw [← henv]
    have hR : env2.radius_miles = env.radius_miles := by rw [← henv]
    have hWl : env2.watchlist = env.watchlist := by rw [← henv]
    rcases hE : env.resolve with e | ⟨lat, lon⟩
    · simp [run_once, hres2, hE, Agrees]
    · have hrg := @agrees_runGroups env env2 hA hR lat lon
        (groupByRetailer env.watchlist) st st ⟨rfl, rfl, rfl⟩
      rcases h1 : runGroups env lat lon (groupByRetailer env.watchlist) st with ⟨r1, s1⟩
      rcases h2 : runGroups env2 lat lon (groupByRetailer env.watchlist) st with ⟨r2, s2⟩
      rw [h1, h2] at hrg
      simp only at hrg
      obtain ⟨hr, hs⟩ := hrg
      subst hr
      simp only [run_once, hres2, hE, hWl, h1, h2]
      cases r1 with
      | error e => exact ⟨rfl, hs⟩
      | ok recs => exact ⟨rfl, hs.1, hs.2.1, rfl⟩
  exact ⟨hmain.1, hmain.2.1, hmain.2.2.2, fun adapter item store st1 =>
    processStore_trace env adapter item store st1⟩

theorem countUpdates_append (d1 d2 : List Event) :
    countUpdates (d1 ++ d2) = countUpdates d1 + countUpdates d2 := by
  induction d1 with
  | nil => simp [countUpdates]
  | cons ev rest ih =>
    cases ev with
    | update r k sid s => simp [countUpdates, ih]; omega
    | alertAttempt m r => simp [countUpdates, ih]

theorem applyEvents_append (d1 d2 : List Event) :
    ∀ (t : Table) (c : Nat),
    applyEvents t c (d1 ++ d2) =
      applyEvents (applyEvents t c d1) (c + countUpdates d1) d2 := by
  induction d1 with
  | nil => intro t c; simp [applyEvents, countUpdates]
  | cons ev rest ih =>
    intro t c
    cases ev with
    | update r k sid s =>
      have hc : c + (countUpdates rest + 1) = (c + 1) + countUpdates rest := by omega
      simp [applyEvents, countUpdates, ih, hc]
    | alertAttempt m r => simp [applyEvents, countUpdates, ih]

theorem evolves_refl (st : RunState) : Evolves st st :=
  ⟨[], by simp [applyEvents, countUpdates]⟩

theorem evolves_trans {a b c : RunState} (h1 : Evolves a b) (h2 : Evolves b c) :
    Evolves a c := by
  obtain ⟨d1, ht1, hb1, hc1, hs1⟩ := h1
  obtain ⟨d2, ht2, hb2, hc2, hs2⟩ := h2
  refine ⟨d1 ++ d2, ?_, ?_, ?_, ?_⟩
  · rw [ht2, ht1, List.append_assoc]
  · rw [hb2, hb1, hc1, applyEvents_append]
  · rw [hc2, hc1, countUpdates_append]; omega
  · rw [hs2, hs1]

theorem evolves_processStore (env : RunEnv) (adapter : Adapter) (item : WatchItem)
    (store : Store) (st : RunState) :
    Evolves st (processStore env adapter item store st).2 := by
  by_cases hc : (update_status st.table item.retailer item.item_key store.store_id
      (effStatus adapter item store) st.clock).1.should_alert
  · refine ⟨[Event.update item.retailer item.item_key store.store_id
        (effStatus adapter item store),
      Event.alertAttempt (alertMessage item store)
        (env.sink.send (alertMessage item store))], ?_, ?_, ?_, ?_⟩
    · rw [processStore_trace]; simp [hc]
    · rw [processStore_table]; simp [applyEvents]
    · rw [processStore_clock]; simp [countUpdates]
    · rw [processStore_snapshot]
  · refine ⟨[Event.update item.retailer item.item_key store.store_id
        (effStatus adapter item store)], ?_, ?_, ?_, ?_⟩
    · rw [processStore_trace]; simp [hc]
    · rw [processStore_table]; simp [applyEvents]
    · rw [processStore_clock]; simp [countUpdates]
    · rw [processStore_snapshot]

theorem evolves_processItem (env : RunEnv) (adapter : Adapter) (item : WatchItem)
    (stores : List Store) : ∀ st : RunState,
    Evolves st (processItem env adapter item stores st).2 := by
  induction stores with
  | nil => intro st; exact evolves_refl st
  | cons store rest ih =>
    intro st
    exact evolves_trans (evolves_processStore env adapter item store st)
      (ih (processStore env adapter item store st).2)

theorem evolves_processGroup (env : RunEnv) (adapter : Adapter) (stores : List Store)
    (items : List WatchItem) : ∀ st : RunState,
    Evolves st (processGroup env adapter stores items st).2 := by
  induction items with
  | nil => intro st; exact evolves_refl st
  | cons item rest ih =>
    intro st
    exact evolves_trans (evolves_processItem env adapter item stores st)
      (ih (processItem env adapter item stores st).2)

theorem evolves_runGroups (env : RunEnv) (lat lon : ℚ)
    (groups : List (String × List WatchItem)) : ∀ st : RunState,
    Evolves st (runGroups env lat lon groups st).2 := by
  induction groups with
  | nil => intro st; exact evolves_refl st
  | cons g rest ih =>
    intro st
    obtain ⟨retailer, items⟩ := g
    simp only [runGroups]
    rcases hf : (env.adapters retailer).find_stores_near lat lon env.radius_miles
      with e | stores
    · exact evolves_refl st
    · simp only
      have h1 := evolves_processGroup env (env.adapters retailer) stores items st
      have h2 := ih (processGroup env (env.adapters retailer) stores items st).2
      rcases hr : runGroups env lat lon rest
          (processGroup env (env.adapters retailer) stores items st).2 with ⟨r, s2⟩
      rw [hr] at h2
      cases r <;> exact evolves_trans h1 h2

theorem schedPass_log (base now : ℚ) (jitter : Nat → ℚ) (hbase : 0 ≤ base)
    (hj : ∀ i, (0.8 : ℚ) ≤ jitter i ∧ jitter i ≤ 1.2) :
    ∀ (items : List WatchItem) (i : Nat) (sched : SchedMap),
    ∀ e ∈ (schedPass base now jitter items i sched).2.1,
      e.now = now ∧ e.dueBefore ≤ e.now
    ∧ e.now + 0.8 * base ≤ e.newDue ∧ e.newDue ≤ e.now + 1.2 * base := by
  intro items
  induction items with
  | nil => intro i sched e he; simp [schedPass] at he
  | cons item rest ih =>
    intro i sched e he
    simp only [schedPass] at he
    split at he
    · exact ih (i + 1) sched e he
    · rename_i hlt
      simp only [List.mem_cons] at he
      rcases he with he | he
      · subst he
        refine ⟨rfl, le_of_not_lt hlt, ?_, ?_⟩
        · have h1 := (hj i).1
          nlinarith
        · have h2 := (hj i).2
          nlinarith
      · exact ih (i + 1) _ e he

theorem schedRun_log (base : ℚ) (watchlist : List WatchItem) (hbase : 0 ≤ base) :
    ∀ (passes : List (ℚ × (Nat → ℚ))) (sched : SchedMap),
    (∀ p ∈ passes, ∀ i, (0.8 : ℚ) ≤ p.2 i ∧ p.2 i ≤ 1.2) →
    ∀ e ∈ (schedRun base watchlist passes sched).2,
      e.dueBefore ≤ e.now
    ∧ e.now + 0.8 * base ≤ e.newDue ∧ e.newDue ≤ e.now + 1.2 * base := by
  intro passes
  induction passes with
  | nil => intro sched h e he; simp [schedRun] at he
  | cons p rest ih =>
    intro sched h e he
    obtain ⟨now, jitter⟩ := p
    simp only [schedRun, List.mem_append] at he
    rcases he with he | he
    · have hp := schedPass_log base now jitter hbase
        (fun i => h _ (List.mem_cons_self _ _) i) watchlist 0 sched e he
      exact ⟨hp.2.1, hp.2.2⟩
    · exact ih _ (fun q hq => h q (List.mem_cons_of_mem _ hq)) e he

/-- C2 as stated is refuted: with two retailers in the watchlist, the
target adapter raising inside find_stores_near makes run_once itself
return the raised error, so the run aborts and no CheckRecord of the
other retailer is returned. -/
theorem C2_counterexample :
    envC2.watchlist = [itemT, itemG]
  ∧ itemT.retailer = "target"
  ∧ itemG.retailer = "gamestop"
  ∧ (envC2.adapters "target").find_stores_near 1 2 envC2.radius_miles =
      Except.error (Err.fault "boom")
  ∧ (run_once envC2 st0).1 = Except.error (Err.fault "boom") := by
  exact ⟨rfl, rfl, rfl, rfl, rfl⟩

/-- C2 amended: partial-failure isolation holds for check_item_in_store
faults only.  Whenever every find_stores_near call of the run succeeds,
run_once completes and returns one CheckRecord per watched item per
candidate store of its retailer, no matter which check_item_in_store
calls raise (those degrade to unknown through effStatus); a raise inside
find_stores_near instead aborts the whole run. -/
theorem C2_partial_failure_isolation :
    ∀ (env : RunEnv) (st : RunState) (lat lon : ℚ) (storesFn : String → List Store),
    env.resolve = .ok (lat, lon) →
    (∀ g ∈ groupByRetailer env.watchlist,
      (env.adapters g.1).find_stores_near lat lon env.radius_miles = .ok (storesFn g.1)) →
    (run_once env st).1 =
      .ok ((groupByRetailer env.watchlist).flatMap fun g =>
        g.2.flatMap fun item => (storesFn g.1).map fun store =>
          recordFor item store (effStatus (env.adapters g.1) item store)) := by
  intro env st lat lon storesFn hres h
  have hok := runGroups_ok env lat lon storesFn (groupByRetailer env.watchlist) st h
  rcases hg : runGroups env lat lon (groupByRetailer env.watchlist) st with ⟨r, s1⟩
  rw [hg] at hok
  simp only at hok
  subst hok
  simp [run_once, hres, hg]

/-- Witness for C2 amended: two retailers, every target check raises a
network fault, both find calls succeed; the run completes with the target
pair recorded unknown and the gamestop pair recorded in_stock. -/
theorem C2_partial_failure_isolation_witness :
    envC2W.resolve = Except.ok ((1 : ℚ), (2 : ℚ))
  ∧ (∀ g ∈ groupByRetailer envC2W.watchlist,
      (envC2W.adapters g.1).find_stores_near 1 2 envC2W.radius_miles =
        .ok (storesFnW g.1))
  ∧ (run_once envC2W st0).1 =
      Except.ok [recordFor itemT storeT StockStatus.unknown,
        recordFor itemG storeG StockStatus.in_stock] := by
  have hmem : ∀ g ∈ groupByRetailer envC2W.watchlist,
      (envC2W.adapters g.1).find_stores_near 1 2 envC2W.radius_miles =
        .ok (storesFnW g.1) := by
    intro g hg
    have hgs : groupByRetailer envC2W.watchlist =
        [("target", [itemT]), ("gamestop", [itemG])] := rfl
    rw [hgs] at hg
    simp only [List.mem_cons, List.not_mem_nil, or_false] at hg
    rcases hg with h | h <;> subst h <;> rfl
  refine ⟨rfl, hmem, ?_⟩
  have h := C2_partial_failure_isolation envC2W st0 1 2 storesFnW rfl hmem
  rw [h]
  rfl

/-- C3: inside a run, every raise of check_item_in_store is absorbed into
status unknown, the status of every (item, store) pair is written to the
state store, and exactly one CheckRecord per candidate store is produced,
in store order; _process_item is total, so a single check failure never
aborts the run. -/
theorem C3_per_check_isolation :
    ∀ (env : RunEnv) (adapter : Adapter) (item : WatchItem) (stores : List Store)
      (st : RunState),
    (processItem env adapter item stores st).1 =
      stores.map (fun store => recordFor item store (effStatus adapter item store))
  ∧ updatesOf (processItem env adapter item stores st).2.trace =
      updatesOf st.trace ++ stores.map (fun store =>
        Event.update item.retailer item.item_key store.store_id
          (effStatus adapter item store))
  ∧ ∀ (store : Store) (e : Err),
      adapter.check_item_in_store item store = .error e →
      effStatus adapter item store = StockStatus.unknown := by
  intro env adapter item stores st
  refine ⟨processItem_records env adapter item stores st,
    processItem_updates env adapter item stores st, ?_⟩
  intro store e he
  simp [effStatus, he]

/-- Witness for C3: an adapter raising a network fault on every check
yields CheckRecords with status unknown and still exactly one record for
the pair. -/
theorem C3_per_check_isolation_witness :
    (failCheckAdapter [storeT]).check_item_in_store itemT storeT =
      Except.error (Err.fault "net down")
  ∧ effStatus (failCheckAdapter [storeT]) itemT storeT = StockStatus.unknown
  ∧ (processItem envC2W (failCheckAdapter [storeT]) itemT [storeT] st0).1 =
      [recordFor itemT storeT StockStatus.unknown] := by
  refine ⟨rfl, ?_, ?_⟩
  · exact (C3_per_check_isolation envC2W (failCheckAdapter [storeT]) itemT [storeT]
      st0).2.2 storeT (Err.fault "net down") rfl
  · have h := (C3_per_check_isolation envC2W (failCheckAdapter [storeT]) itemT [storeT]
      st0).1
    rw [h]
    rfl

/-- C6 as stated is refuted: the identifier-kind mismatch does raise
inside check_item_in_store, but _process_item catches every exception, so
the run that triggered it completes normally with the check degraded to
unknown instead of surfacing the error to the caller of the run. -/
theorem C6_counterexample :
    itemBad.identifier.type = IdKind.sku
  ∧ target_check_item_with_page "some page text" itemBad =
      Except.error (Err.identifierMismatch "target adapter requires url identifier")
  ∧ (run_once envC6 st0).1 =
      Except.ok [recordFor itemBad
        (local_context_store "target" (some "10001") 1 2 20) StockStatus.unknown] := by
  exact ⟨rfl, rfl, rfl⟩

/-- C6 amended: an incompatible identifier kind makes check_item_in_store
fail with an IdentifierMismatch error, surfaced to direct callers of the
adapter; inside a run, however, the per-check boundary of _process_item
catches it like any other check fault and degrades that pair to unknown,
so the error does not abort the run. -/
theorem C6_identifier_mismatch_recovered :
    ∀ (pageText : String) (item : WatchItem) (payload : Json),
    (item.identifier.type ≠ IdKind.url →
      target_check_item_with_page pageText item =
        Except.error (Err.identifierMismatch "target adapter requires url identifier"))
  ∧ (item.identifier.type ≠ IdKind.sku →
      bestbuy_check_item_in_store payload item =
        Except.error (Err.identifierMismatch "bestbuy adapter requires sku identifier"))
  ∧ ∀ (env : RunEnv) (adapter : Adapter) (store : Store) (st : RunState) (e : Err),
      adapter.check_item_in_store item store = .error e →
      (processStore env adapter item store st).1 =
        recordFor item store StockStatus.unknown := by
  intro pageText item payload
  refine ⟨?_, ?_, ?_⟩
  · intro h; simp [target_check_item_with_page, h]
  · intro h; simp [bestbuy_check_item_in_store, h]
  · intro env adapter store st e he
    rw [processStore_fst]
    simp [effStatus, he]

/-- Witness for C6 amended at the sku-misconfigured target item. -/
theorem C6_identifier_mismatch_recovered_witness :
    itemBad.identifier.type ≠ IdKind.url
  ∧ target_check_item_with_page "some page text" itemBad =
      Except.error (Err.identifierMismatch "target adapter requires url identifier")
  ∧ (processStore envC6 (targetPageAdapter "some page text") itemBad storeT st0).1 =
      recordFor itemBad storeT StockStatus.unknown := by
  refine ⟨by decide, ?_, ?_⟩
  · exact (C6_identifier_mismatch_recovered "some page text" itemBad Json.null).1
      (by decide)
  · exact (C6_identifier_mismatch_recovered "some page text" itemBad Json.null).2.2
      envC6 (targetPageAdapter "some page text") storeT st0
      (Err.identifierMismatch "target adapter requires url identifier") rfl

/-- C9: the schedule seeds every key at zero; over any finite prefix of
the run_forever loop, an item executes only when the pass time has
reached its due time, and every reschedule lands in
[now + 0.8 * base, now + 1.2 * base] provided the uniform draws lie in
[0.8, 1.2]; hence no item is ever re-checked before its due time. -/
theorem C9_jittered_scheduling :
    ∀ (base : ℚ) (watchlist : List WatchItem) (passes : List (ℚ × (Nat → ℚ)))
      (k : SchedKey),
    0 ≤ base →
    (∀ p ∈ passes, ∀ i, (0.8 : ℚ) ≤ p.2 i ∧ p.2 i ≤ 1.2) →
    schedGet [] k = 0
  ∧ ∀ e ∈ (schedRun base watchlist passes []).2,
      e.dueBefore ≤ e.now
    ∧ e.now + 0.8 * base ≤ e.newDue
    ∧ e.newDue ≤ e.now + 1.2 * base := by
  intro base watchlist passes k hbase hj
  exact ⟨rfl, fun e he => schedRun_log base watchlist hbase passes [] hj e he⟩

/-- Witness for C9: one pass at time zero with a unit jitter draw over a
single-item watchlist. -/
theorem C9_jittered_scheduling_witness :
    (0 : ℚ) ≤ 180
  ∧ (∀ p ∈ [((0 : ℚ), fun _ : Nat => (1 : ℚ))], ∀ i, (0.8 : ℚ) ≤ p.2 i ∧ p.2 i ≤ 1.2)
  ∧ (schedGet [] ("target", "url:https://t.example/p") = 0
    ∧ ∀ e ∈ (schedRun 180 [itemT] [((0 : ℚ), fun _ : Nat => (1 : ℚ))] []).2,
        e.dueBefore ≤ e.now
      ∧ e.now + 0.8 * 180 ≤ e.newDue
      ∧ e.newDue ≤ e.now + 1.2 * 180) := by
  have hj : ∀ p ∈ [((0 : ℚ), fun _ : Nat => (1 : ℚ))], ∀ i,
      (0.8 : ℚ) ≤ p.2 i ∧ p.2 i ≤ 1.2 := by
    intro p hp i
    simp only [List.mem_singleton] at hp
    subst hp
    constructor <;> norm_num
  exact ⟨by norm_num, hj,
    C9_jittered_scheduling 180 [itemT] [((0 : ℚ), fun _ : Nat => (1 : ℚ))]
      ("target", "url:https://t.example/p") (by norm_num) hj⟩

/-- C10: the snapshot file is replaced only as the final step of a fully
successful run_once (then it holds exactly the returned records); a run
that exits with an error leaves the snapshot untouched; and in every case
the final table is exactly the replay of the state-store writes the run
logged over the initial table, so updates made before a failure are kept
and never rolled back. -/
theorem C10_snapshot_frame :
    ∀ (env : RunEnv) (st : RunState),
    (∀ e : Err, (run_once env st).1 = .error e →
      (run_once env st).2.snapshot = st.snapshot)
  ∧ (∀ records : List CheckRecord, (run_once env st).1 = .ok records →
      (run_once env st).2.snapshot = some records)
  ∧ (run_once env st).2.trace =
      st.trace ++ (run_once env st).2.trace.drop st.trace.length
  ∧ (run_once env st).2.table =
      applyEvents st.table st.clock ((run_once env st).2.trace.drop st.trace.length) := by
  intro env st
  have key : ∃ Δ, (run_once env st).2.trace = st.trace ++ Δ ∧
      (run_once env st).2.table = applyEvents st.table st.clock Δ := by
    rcases hE : env.resolve with e | ⟨lat, lon⟩
    · exact ⟨[], by simp [run_once, hE], by simp [run_once, hE, applyEvents]⟩
    · have h := evolves_runGroups env lat lon (groupByRetailer env.watchlist) st
      rcases hr : runGroups env lat lon (groupByRetailer env.watchlist) st with ⟨r, s1⟩
      rw [hr] at h
      obtain ⟨Δ, ht, hb, _, _⟩ := h
      cases r with
      | ok recs =>
        exact ⟨Δ, by simp only [run_once, hE, hr]; exact ht,
          by simp only [run_once, hE, hr]; exact hb⟩
      | error e =>
        exact ⟨Δ, by simp only [run_once, hE, hr]; exact ht,
          by simp only [run_once, hE, hr]; exact hb⟩
  obtain ⟨Δ, ht, hb⟩ := key
  have hdrop : (run_once env st).2.trace.drop st.trace.length = Δ := by
    rw [ht]
    exact List.drop_left _ _
  refine ⟨?_, ?_, ?_, ?_⟩
  · intro e he
    rcases hE : env.resolve with e0 | ⟨lat, lon⟩
    · simp [run_once, hE]
    · have h := evolves_runGroups env lat lon (groupByRetailer env.watchlist) st
      rcases hr : runGroups env lat lon (groupByRetailer env.watchlist) st with ⟨r, s1⟩
      rw [hr] at h
      obtain ⟨_, _, _, _, hs⟩ := h
      cases r with
      | ok recs => simp [run_once, hE, hr] at he
      | error e2 => simp only [run_once, hE, hr]; exact hs
  · intro records hrec
    rcases hE : env.resolve with e0 | ⟨lat, lon⟩
    · simp [run_once, hE] at hrec
    · rcases hr : runGroups env lat lon (groupByRetailer env.watchlist) st with ⟨r, s1⟩
      cases r with
      | ok recs =>
        simp only [run_once, hE, hr] at hrec ⊢
        simp only [Except.ok.injEq] at hrec
        rw [hrec]
      | error e2 => simp [run_once, hE, hr] at hrec
  · rw [hdrop]; exact ht
  · rw [hdrop]; exact hb

/-- Witness for C10: a run aborted by location resolution keeps the
snapshot; a successful run writes exactly its records; a run aborted by a
find_stores_near raise after the first retailer group keeps the snapshot
while the already-written gamestop row survives in the table. -/
theorem C10_snapshot_frame_witness :
    (run_once envErr st0).1 =
      Except.error (Err.fault "location must include zip or lat/lon")
  ∧ (run_once envErr st0).2.snapshot = st0.snapshot
  ∧ (run_once envOk st0).1 = Except.ok [recordFor itemT storeT StockStatus.in_stock]
  ∧ (run_once envOk st0).2.snapshot = some [recordFor itemT storeT StockStatus.in_stock]
  ∧ (run_once envC10 st0).1 = Except.error (Err.fault "boom")
  ∧ (run_once envC10 st0).2.snapshot = st0.snapshot
  ∧ get_status (run_once envC10 st0).2.table "gamestop" itemG.item_key storeG.store_id =
      some StockStatus.in_stock := by
  refine ⟨rfl, ?_, rfl, ?_, rfl, ?_, rfl⟩
  · exact (C10_snapshot_frame envErr st0).1
      (Err.fault "location must include zip or lat/lon") rfl
  · exact (C10_snapshot_frame envOk st0).2.1
      [recordFor itemT storeT StockStatus.in_stock] rfl
  · exact (C10_snapshot_frame envC10 st0).1 (Err.fault "boom") rfl

/-- C5: every scrape-based classification lowercases the fetched blob and
tests the negative terms before the positive terms, so a blob containing
a negative term classifies as out_of_stock even when a positive term is
also present, a blob matching neither list classifies as unknown, and the
target and bestbuy adapter entry points reduce to exactly this
classification on a compatible identifier. -/
theorem C5_classification_tie_break :
    ∀ (blob : String) (item : WatchItem) (payload : Json),
    ((target_negative_signals.any fun t => strContains (lower blob) t) = true →
      classify target_negative_signals target_positive_signals blob = StockStatus.out_of_stock)
  ∧ ((target_negative_signals.any fun t => strContains (lower blob) t) = false →
      (target_positive_signals.any fun t => strContains (lower blob) t) = false →
      classify target_negative_signals target_positive_signals blob = StockStatus.unknown)
  ∧ ((bestbuy_negative.any fun t => strContains (lower blob) t) = true →
      classify bestbuy_negative bestbuy_positive blob = StockStatus.out_of_stock)
  ∧ ((bestbuy_negative.any fun t => strContains (lower blob) t) = false →
      (bestbuy_positive.any fun t => strContains (lower blob) t) = false →
      classify bestbuy_negative bestbuy_positive blob = StockStatus.unknown)
  ∧ (item.identifier.type = IdKind.url →
      target_check_item_with_page blob item =
        Except.ok (classify target_negative_signals target_positive_signals blob))
  ∧ (item.identifier.type = IdKind.sku →
      bestbuy_check_item_in_store payload item =
        Except.ok (classify bestbuy_negative bestbuy_positive (flatten_text payload))) := by
  intro blob item payload
  refine ⟨?_, ?_, ?_, ?_, ?_, ?_⟩
  · intro h; simp [classify, h]
  · intro h g; simp [classify, h, g]
  · intro h; simp [classify, h]
  · intro h g; simp [classify, h, g]
  · intro h; simp [target_check_item_with_page, h]
  · intro h; simp [bestbuy_check_item_in_store, h]

/-- Witness for C5 at concrete blobs: a page text carrying both a
negative and a positive term classifies out_of_stock, a term-free text
classifies unknown, and the adapter entry points agree. -/
theorem C5_classification_tie_break_witness :
    classify target_negative_signals target_positive_signals
      "SOLD OUT online, but Pickup available soon" = StockStatus.out_of_stock
  ∧ classify target_negative_signals target_positive_signals
      "nothing of note here" = StockStatus.unknown
  ∧ classify bestbuy_negative bestbuy_positive
      "Sold Out now - available again later" = StockStatus.out_of_stock
  ∧ classify bestbuy_negative bestbuy_positive "no signal words" = StockStatus.unknown
  ∧ target_check_item_with_page "SOLD OUT"
      ⟨"target", "card", ⟨IdKind.url, "https://t.example/p"⟩⟩ =
        Except.ok StockStatus.out_of_stock
  ∧ bestbuy_check_item_in_store (Json.obj [Json.prim "Sold Out"])
      ⟨"bestbuy", "card", ⟨IdKind.sku, "123"⟩⟩ = Except.ok StockStatus.out_of_stock := by
  refine ⟨?_, ?_, ?_, ?_, ?_, ?_⟩
  · exact (C5_classification_tie_break "SOLD OUT online, but Pickup available soon"
      ⟨"target", "card", ⟨IdKind.url, "u"⟩⟩ Json.null).1 (by decide)
  · exact (C5_classification_tie_break "nothing of note here"
      ⟨"target", "card", ⟨IdKind.url, "u"⟩⟩ Json.null).2.1 (by decide) (by decide)
  · exact (C5_classification_tie_break "Sold Out now - available again later"
      ⟨"target", "card", ⟨IdKind.url, "u"⟩⟩ Json.null).2.2.1 (by decide)
  · exact (C5_classification_tie_break "no signal words"
      ⟨"target", "card", ⟨IdKind.url, "u"⟩⟩ Json.null).2.2.2.1 (by decide) (by decide)
  · exact ((C5_classification_tie_break "SOLD OUT"
      ⟨"target", "card", ⟨IdKind.url, "https://t.example/p"⟩⟩ Json.null).2.2.2.2.1
        rfl).trans (congrArg Except.ok (by decide))
  · exact ((C5_classification_tie_break ""
      ⟨"bestbuy", "card", ⟨IdKind.sku, "123"⟩⟩ (Json.obj [Json.prim "Sold Out"])).2.2.2.2.2
        rfl).trans (congrArg Except.ok (by decide))

/-- C1: update_status computes changed as inequality against the prior
recorded status (absent row counts as a change) and should_alert as
changed AND new status equals in_stock; re-applying a status yields
changed false the second time, out_of_stock and unknown observations never
alert, and a transition into in_stock alerts exactly when the prior
recorded status was not in_stock, exactly once. -/
theorem C1_transition_policy :
    ∀ (t : Table) (r k sid : String) (s : StockStatus) (now now2 : Nat),
    ((update_status t r k sid s now).1.changed = true ↔ get_status t r k sid ≠ some s)
  ∧ ((update_status t r k sid s now).1.should_alert = true ↔
      ((update_status t r k sid s now).1.changed = true ∧ s = StockStatus.in_stock))
  ∧ (update_status (update_status t r k sid s now).2 r k sid s now2).1.changed = false
  ∧ (update_status t r k sid StockStatus.out_of_stock now).1.should_alert = false
  ∧ (update_status t r k sid StockStatus.unknown now).1.should_alert = false
  ∧ ((update_status t r k sid StockStatus.in_stock now).1.should_alert = true ↔
      get_status t r k sid ≠ some StockStatus.in_stock)
  ∧ (update_status (update_status t r k sid StockStatus.in_stock now).2
      r k sid StockStatus.in_stock now2).1.should_alert = false := by
  intro t r k sid s now now2
  refine ⟨?_, ?_, ?_, ?_, ?_, ?_, ?_⟩
  · simp [update_status]
  · simp [update_status]
  · have h := get_update_self t r k sid s now
    simp only [update_status] at h ⊢
    simp [h]
  · simp [update_status]
  · simp [update_status]
  · simp [update_status]
  · have h := get_update_self t r k sid StockStatus.in_stock now
    simp only [update_status] at h ⊢
    simp [h]

/-- Witness for C1 at the sequence of tests/test_state.py: out_of_stock,
out_of_stock again, then in_stock on the key (target, url:https://x, s1):
changed on the first write, unchanged on the repeat, alert exactly on the
arrival of in_stock. -/
theorem C1_transition_policy_witness :
    (update_status [] "target" "url:https://x" "s1" StockStatus.out_of_stock 0).1.changed
      = true
  ∧ (update_status [] "target" "url:https://x" "s1" StockStatus.out_of_stock 0).1.should_alert
      = false
  ∧ (update_status
      (update_status [] "target" "url:https://x" "s1" StockStatus.out_of_stock 0).2
      "target" "url:https://x" "s1" StockStatus.out_of_stock 1).1.changed = false
  ∧ (update_status
      (update_status [] "target" "url:https://x" "s1" StockStatus.out_of_stock 0).2
      "target" "url:https://x" "s1" StockStatus.in_stock 1).1.should_alert = true := by
  refine ⟨?_, ?_, ?_, ?_⟩
  · exact (C1_transition_policy [] "target" "url:https://x" "s1"
      StockStatus.out_of_stock 0 1).1.mpr (by decide)
  · exact (C1_transition_policy [] "target" "url:https://x" "s1"
      StockStatus.out_of_stock 0 1).2.2.2.1
  · exact (C1_transition_policy [] "target" "url:https://x" "s1"
      StockStatus.out_of_stock 0 1).2.2.1
  · exact (C1_transition_policy
      (update_status [] "target" "url:https://x" "s1" StockStatus.out_of_stock 0).2
      "target" "url:https://x" "s1" StockStatus.out_of_stock 1 2).2.2.2.2.2.1.mpr
      (by decide)

/-- C7: immediately after update_status, get_status on the same key
returns the new status, and this also holds for a freshly initialized
store over the same backing table (CREATE TABLE IF NOT EXISTS keeps all
rows). -/
theorem C7_update_get_roundtrip :
    ∀ (t : Table) (r k sid : String) (s : StockStatus) (now : Nat),
    get_status (update_status t r k sid s now).2 r k sid = some s
  ∧ get_status (init_db (some (update_status t r k sid s now).2)) r k sid = some s := by
  intro t r k sid s now
  exact ⟨get_update_self t r k sid s now,
    by simpa [init_db] using get_update_self t r k sid s now⟩

/-- C8: for any table produced by a sequence of update_status operations
from an empty store, dump_status returns exactly the rows of the table
(a permutation), sorted lexicographically by the composite key
(retailer, item_key, store_id), with at most one row per key. -/
theorem C8_dump_sorted :
    ∀ ops : List (String × String × String × StockStatus × Nat),
    List.Sorted rowLe (dump_status (applyOps [] ops))
  ∧ (dump_status (applyOps [] ops)).Perm (applyOps [] ops)
  ∧ ((dump_status (applyOps [] ops)).map Row.key).Nodup := by
  intro ops
  have hnd : NodupKeys (applyOps [] ops) :=
    nodupKeys_applyOps ops [] (by simp [NodupKeys])
  refine ⟨List.sorted_insertionSort rowLe _, List.perm_insertionSort rowLe _, ?_⟩
  exact ((List.perm_insertionSort rowLe (applyOps [] ops)).map Row.key).nodup_iff.mpr hnd

end StockTracker
